import Mathlib

set_option maxRecDepth 100000

/-!
Verification model of `explainer.py`: an incremental markdown-to-document
pipeline that extracts fenced `python:` code blocks, executes them in order
against a threaded environment, memoizes per-block results in a
content-addressed cache, renders result values through a first-match renderer
registry, stores rendered artifacts in S3, and splices everything back into
the document.

The embedding is shallow: Python dicts become association lists, the Python
object heap (needed because `dict(**g)` is a *shallow* copy and cached
snapshots alias live dicts) becomes explicit `PyState`, the `exec` of a
fragment becomes an explicit `ExecFn` parameter (fragments are arbitrary
Python, so the evaluator is a parameter of every theorem; concrete
counterexamples instantiate it with the semantics of the tiny fragment named
in a comment), and `hashlib.sha256` is implemented bit-for-bit below.
-/

/-! ## SHA-256 (`hashlib.sha256`), modelled bit-for-bit over byte lists -/

/-- Truncate to a 32-bit word, mirroring unsigned 32-bit overflow. -/
def w32 (x : Nat) : Nat := x % 4294967296

/-- 32-bit right rotation. -/
def rotr32 (n x : Nat) : Nat := (x >>> n) ||| w32 (x <<< (32 - n))

/-- SHA-256 round constants. -/
def sha256K : List Nat :=
  [1116352408, 1899447441, 3049323471, 3921009573,
   961987163, 1508970993, 2453635748, 2870763221,
   3624381080, 310598401, 607225278, 1426881987,
   1925078388, 2162078206, 2614888103, 3248222580,
   3835390401, 4022224774, 264347078, 604807628,
   770255983, 1249150122, 1555081692, 1996064986,
   2554220882, 2821834349, 2952996808, 3210313671,
   3336571891, 3584528711, 113926993, 338241895,
   666307205, 773529912, 1294757372, 1396182291,
   1695183700, 1986661051, 2177026350, 2456956037,
   2730485921, 2820302411, 3259730800, 3345764771,
   3516065817, 3600352804, 4094571909, 275423344,
   430227734, 506948616, 659060556, 883997877,
   958139571, 1322822218, 1537002063, 1747873779,
   1955562222, 2024104815, 2227730452, 2361852424,
   2428436474, 2756734187, 3204031479, 3329325298]

/-- The eight 32-bit working variables of the SHA-256 compression function. -/
structure Sha8 where
  a : Nat
  b : Nat
  c : Nat
  d : Nat
  e : Nat
  f : Nat
  g : Nat
  h : Nat
deriving DecidableEq, Repr

/-- Initial SHA-256 hash state. -/
def sha256init : Sha8 :=
  ⟨1779033703, 3144134277, 1013904242, 2773480762,
   1359893119, 2600822924, 528734635, 1541459225⟩

/-- One SHA-256 round; `kw` is the already-combined `K[t] + W[t]` word. -/
def sha256round (kw : Nat) (s : Sha8) : Sha8 :=
  let s1 := rotr32 6 s.e ^^^ rotr32 11 s.e ^^^ rotr32 25 s.e
  let ch := (s.e &&& s.f) ^^^ ((4294967295 - s.e) &&& s.g)
  let t1 := w32 (s.h + s1 + ch + kw)
  let s0 := rotr32 2 s.a ^^^ rotr32 13 s.a ^^^ rotr32 22 s.a
  let mj := (s.a &&& s.b) ^^^ (s.a &&& s.c) ^^^ (s.b &&& s.c)
  let t2 := w32 (s0 + mj)
  ⟨w32 (t1 + t2), s.a, s.b, s.c, w32 (s.d + t1), s.e, s.f, s.g⟩

/-- Run the given round inputs in order. -/
def sha256rounds : List Nat → Sha8 → Sha8
  | [], s => s
  | kw :: rest, s => sha256rounds rest (sha256round kw s)

/-- Message-schedule sigma functions. -/
def ssig0 (x : Nat) : Nat := rotr32 7 x ^^^ rotr32 18 x ^^^ (x >>> 3)

/-- Message-schedule sigma functions. -/
def ssig1 (x : Nat) : Nat := rotr32 17 x ^^^ rotr32 19 x ^^^ (x >>> 10)

/-- Extend the 16 message words by `n` further schedule words. -/
def extendW : Nat → List Nat → List Nat
  | 0, ws => ws
  | n + 1, ws =>
    let t := ws.length
    let nw := w32 (ssig1 (ws.getD (t - 2) 0) + ws.getD (t - 7) 0 +
                   ssig0 (ws.getD (t - 15) 0) + ws.getD (t - 16) 0)
    extendW n (ws ++ [nw])

/-- Group bytes into big-endian 32-bit words (`fuel` bounds recursion). -/
def toWords : Nat → List Nat → List Nat
  | 0, _ => []
  | _ + 1, b0 :: b1 :: b2 :: b3 :: rest =>
    (b0 * 16777216 + b1 * 65536 + b2 * 256 + b3) :: toWords rest.length rest
  | _ + 1, _ => []

/-- Compress one 64-byte chunk into the running hash state. -/
def sha256compress (s : Sha8) (chunk : List Nat) : Sha8 :=
  let ws := extendW 48 (toWords chunk.length chunk)
  let kws := (sha256K.zip ws).map (fun p => w32 (p.1 + p.2))
  let r := sha256rounds kws s
  ⟨w32 (s.a + r.a), w32 (s.b + r.b), w32 (s.c + r.c), w32 (s.d + r.d),
   w32 (s.e + r.e), w32 (s.f + r.f), w32 (s.g + r.g), w32 (s.h + r.h)⟩

/-- Big-endian 8-byte encoding of the 64-bit message bit length. -/
def lenBytes64 (n : Nat) : List Nat :=
  [(n >>> 56) % 256, (n >>> 48) % 256, (n >>> 40) % 256, (n >>> 32) % 256,
   (n >>> 24) % 256, (n >>> 16) % 256, (n >>> 8) % 256, n % 256]

/-- SHA-256 padding: `0x80`, zeros to 56 mod 64, then the bit length. -/
def sha256pad (msg : List Nat) : List Nat :=
  let l := msg.length
  msg ++ [0x80] ++ List.replicate ((64 - ((l + 9) % 64)) % 64) 0 ++ lenBytes64 (8 * l)

/-- Split into 64-byte chunks (`fuel` bounds recursion). -/
def chunks64 : Nat → List Nat → List (List Nat)
  | 0, _ => []
  | _, [] => []
  | fuel + 1, l => l.take 64 :: chunks64 fuel (l.drop 64)

/-- Big-endian 4-byte encoding of a 32-bit word. -/
def wordBytes (x : Nat) : List Nat :=
  [(x >>> 24) % 256, (x >>> 16) % 256, (x >>> 8) % 256, x % 256]

/-- The 32-byte SHA-256 digest of a byte list. -/
def sha256bytes (msg : List Nat) : List Nat :=
  let padded := sha256pad msg
  let fin := (chunks64 padded.length padded).foldl sha256compress sha256init
  wordBytes fin.a ++ wordBytes fin.b ++ wordBytes fin.c ++ wordBytes fin.d ++
  wordBytes fin.e ++ wordBytes fin.f ++ wordBytes fin.g ++ wordBytes fin.h

/-- Lower-case hex character for a nibble. -/
def hexChar (n : Nat) : Char :=
  "0123456789abcdef".data.getD n (Char.ofNat 48)

/-- Two hex characters for one byte. -/
def byteHex (b : Nat) : List Char := [hexChar (b / 16), hexChar (b % 16)]

/-- `hexdigest()` of SHA-256. -/
def sha256hex (msg : List Nat) : String :=
  String.mk ((sha256bytes msg).flatMap byteHex)

/-- UTF-8 encoding of one character (Python `str.encode()`). -/
def charUtf8 (c : Char) : List Nat :=
  let n := c.toNat
  if n < 128 then [n]
  else if n < 2048 then [192 + n / 64, 128 + n % 64]
  else if n < 65536 then [224 + n / 4096, 128 + (n / 64) % 64, 128 + n % 64]
  else [240 + n / 262144, 128 + (n / 4096) % 64, 128 + (n / 64) % 64, 128 + n % 64]

/-- UTF-8 encoding of a string (Python `str.encode()`). -/
def utf8Bytes (s : String) : List Nat := s.data.flatMap charUtf8

/-! ## Python values, the object heap, and dict semantics

`render_html` relies on Python reference semantics in two places: `dict(**g)`
is a *shallow* copy (values are shared by reference), and a cache hit binds
`g` to the very dict object stored in the cache.  So environments are dicts
living in a dict heap, and mutable values (`list`, `dict` objects produced by
fragments) live in an object heap; `PyVal.ref` points into the latter. -/

/-- Python exception kinds observable in the modelled code paths. -/
inductive PyErr where
  | keyError
  | indexError
  | typeError
  | other (msg : String)
deriving DecidableEq, Repr

/-- Python values: immutable scalars, references into the mutable object
heap, and opaque tokens for the library types the renderers inspect
(`matplotlib.image.AxesImage`, `matplotlib.artist.Artist`,
`zounds.AudioSamples`). -/
inductive PyVal where
  | none
  | int (n : Int)
  | str (s : String)
  | ref (a : Nat)
  | axesImage
  | artist
  | audioSamples
deriving DecidableEq, Repr

/-- Mutable heap objects a fragment can create and later mutate in place. -/
inductive PyObj where
  | list (xs : List PyVal)
  | dict (entries : List (PyVal × PyVal))
deriving DecidableEq, Repr

/-- A Python dict used as an execution namespace: insertion-ordered
association list from identifier to value (no duplicate keys). -/
abbrev Dict := List (String × PyVal)

/-- `d[k]` lookup (`None`-free: `Option`). -/
def dictGet (d : Dict) (k : String) : Option PyVal :=
  (d.find? (fun p => p.1 == k)).map (fun p => p.2)

/-- `d[k] = v`: overwrite in place if present (keeping insertion order),
else append. -/
def dictSet (d : Dict) (k : String) (v : PyVal) : Dict :=
  if (d.find? (fun p => p.1 == k)).isSome then
    d.map (fun p => if p.1 == k then (k, v) else p)
  else d ++ [(k, v)]

/-- `del d[k]` (no-op when absent; the caller guards with `except KeyError`). -/
def dictDel (d : Dict) (k : String) : Dict :=
  d.filter (fun p => p.1 != k)

/-- Python subscript `v[idx]` with Python's exception behaviour: lists index
with negative wrap-around and raise `IndexError` out of range or `TypeError`
on a non-int index; dict objects raise `KeyError` on a missing key;
non-subscriptable values raise `TypeError`.  `zounds.AudioSamples` is
ndarray-like, so subscripting it succeeds (the sample value is opaque to
every claim and modelled as `0`). -/
def getItem (objs : List PyObj) (v idx : PyVal) : Except PyErr PyVal :=
  match v with
  | .ref a =>
    match objs.get? a with
    | Option.none => .error (.other "dangling reference")
    | some (.list xs) =>
      match idx with
      | .int n =>
        let i : Int := if n < 0 then n + xs.length else n
        if 0 ≤ i ∧ i.toNat < xs.length then .ok (xs.getD i.toNat PyVal.none)
        else .error .indexError
      | _ => .error .typeError
    | some (.dict es) =>
      match es.find? (fun p => p.1 == idx) with
      | some p => .ok p.2
      | Option.none => .error .keyError
  | .str s =>
    match idx with
    | .int n =>
      let i : Int := if n < 0 then n + s.length else n
      if 0 ≤ i ∧ i.toNat < s.length then
        .ok (.str (String.mk [s.data.getD i.toNat (Char.ofNat 32)]))
      else .error .indexError
    | _ => .error .typeError
  | .audioSamples => .ok (.int 0)
  | _ => .error .typeError

/-- `str(value)` as used by the textual fallback `f'`...`'`.  Reprs of the
opaque library tokens never appear in any claim; depth is bounded by fuel to
cope with cyclic references. -/
def pyStrN (objs : List PyObj) : Nat → PyVal → String
  | _, .none => "None"
  | _, .int n => toString n
  | _, .str s => s
  | _, .axesImage => "<AxesImage>"
  | _, .artist => "<Artist>"
  | _, .audioSamples => "<AudioSamples>"
  | 0, .ref _ => "..."
  | fuel + 1, .ref a =>
    match objs.get? a with
    | some (.list xs) =>
      "[" ++ String.intercalate ", " (xs.map (pyStrN objs fuel)) ++ "]"
    | some (.dict es) =>
      "\x7b" ++ String.intercalate ", "
        (es.map (fun p => pyStrN objs fuel p.1 ++ ": " ++ pyStrN objs fuel p.2)) ++ "\x7d"
    | Option.none => "<dangling>"

/-- `str(value)`. -/
def pyStr (objs : List PyObj) (v : PyVal) : String := pyStrN objs (objs.length + 1) v

/-- The process heap: every dict object (execution namespaces, cached
snapshots) and every mutable value object, addressed by index.  It persists
across render passes within one process. -/
structure PyState where
  dicts : List Dict
  objs : List PyObj
deriving DecidableEq, Repr

/-- Allocate a fresh dict object, returning its address. -/
def allocDict (ps : PyState) (d : Dict) : PyState × Nat :=
  ({ ps with dicts := ps.dicts ++ [d] }, ps.dicts.length)

/-- Contents of the dict object at an address. -/
def dictAt (ps : PyState) (a : Nat) : Dict := ps.dicts.getD a []

/-- Overwrite the dict object at an address (in-place dict mutation). -/
def setDictAt (ps : PyState) (a : Nat) (d : Dict) : PyState :=
  { ps with dicts := ps.dicts.set a d }

/-- The Evaluator: `exec(compile(normalized, ...), glob)`.  A fragment is
arbitrary Python, so the evaluator is a parameter: it receives the fragment's
normalized source, the contents of the globals dict it runs in, and the
object heap, and returns the mutated globals and heap, or raises.  Real
fragments cannot reach any other namespace dict (only values, via shared
references), which is exactly the access this type grants. -/
abbrev ExecFn := String → Dict → List PyObj → Except PyErr (Dict × List PyObj)

/-! ## `CodeBlock` and `EmbeddedCodeBlock` -/

/-- One extracted code fragment (`CodeBlock`); `raw` is the regex `code`
group. -/
structure CodeBlock where
  raw : String
deriving DecidableEq, Repr

/-- `'\n```python\n' + raw + '```\n'`. -/
def CodeBlock.markdown (cb : CodeBlock) : String :=
  "\n```python\n" ++ cb.raw ++ "```\n"

/-- Split a character list at newline characters (Python `str.splitlines`
for the newline-separated text this pipeline consumes). -/
def splitNl : List Char → List (List Char)
  | [] => [[]]
  | c :: rest =>
    if c = '\n' then [] :: splitNl rest
    else
      match splitNl rest with
      | [] => [[c]]
      | l :: ls => (c :: l) :: ls

/-- `'\n'.join(filter(bool, raw.splitlines()))`: drop blank lines. -/
def CodeBlock.normalized (cb : CodeBlock) : String :=
  String.intercalate "\n"
    (((splitNl cb.raw.data).map String.mk).filter (fun x => x ≠ ""))

/-- `CodeBlock.get_result`: run the normalized text in `glob`, then return
`glob.get('_', None)` alongside the mutated globals and heap. -/
def CodeBlock.get_result (ex : ExecFn) (cb : CodeBlock) (glob : Dict)
    (objs : List PyObj) : Except PyErr (Dict × List PyObj × PyVal) :=
  match ex cb.normalized glob objs with
  | .error e => .error e
  | .ok (g2, objs2) => .ok (g2, objs2, (dictGet g2 "_").getD PyVal.none)

/-- A block in document context: char offsets `start`/`span` of the regex
match and the 0-based occurrence `position`. -/
structure EmbeddedCodeBlock where
  block : CodeBlock
  start : Nat
  span : Nat
  position : Nat
deriving DecidableEq, Repr

/-- `end = start + span`. -/
def EmbeddedCodeBlock.endPos (b : EmbeddedCodeBlock) : Nat := b.start + b.span

/-- The block's fenced re-rendering. -/
def EmbeddedCodeBlock.markdown (b : EmbeddedCodeBlock) : String := b.block.markdown

/-- `content_key`: sha256 seeded with `f'position: {position}'`, then updated
with the preceding fingerprint and the normalized block text; successive
`update` calls hash the concatenation. -/
def EmbeddedCodeBlock.content_key (b : EmbeddedCodeBlock) (preceeding : String) : String :=
  sha256hex (utf8Bytes ("position: " ++ toString b.position) ++
             utf8Bytes preceeding ++ utf8Bytes b.block.normalized)

/-! ### Block extraction

`re.compile(r'```python:\s+(?P<code>[^`]+)```').finditer(markdown)`:
at a candidate start we need the literal ` ```python: `, at least one
whitespace, then a non-empty backtick-free `code` group, then ` ``` `.
`\s+` is greedy: it swallows the maximal whitespace run; if the very next
character is already a backtick the engine backtracks one whitespace
character into `code` (possible only when the run has length ≥ 2).
`finditer` yields non-overlapping matches scanning left to right. -/

/-- Python `\s` on ASCII text. -/
def isPySpace (c : Char) : Bool :=
  c == Char.ofNat 32 || c == Char.ofNat 9 || c == Char.ofNat 10 ||
  c == Char.ofNat 13 || c == Char.ofNat 11 || c == Char.ofNat 12

/-- The backtick character. -/
def btick : Char := Char.ofNat 96

/-- Try to match the block pattern exactly at the head of `cs`; on success
return the `code` group and the match length. -/
def matchAt (cs : List Char) : Option (String × Nat) :=
  if cs.take 10 = "```python:".data then
    let rest := cs.drop 10
    let w := (rest.takeWhile isPySpace).length
    if w == 0 then Option.none
    else
      let afterWs := rest.drop w
      let c := (afterWs.takeWhile (fun ch => ch != btick)).length
      if c > 0 then
        if (afterWs.drop c).take 3 = [btick, btick, btick] then
          some (String.mk (afterWs.take c), 10 + w + c + 3)
        else Option.none
      else
        if 2 ≤ w ∧ afterWs.take 3 = [btick, btick, btick] then
          some (String.mk ((rest.drop (w - 1)).take 1), 10 + w + 3)
        else Option.none
  else Option.none

/-- Scan the whole character list, yielding blocks in document order with
increasing `position` (`fuel` bounds recursion; one char is consumed per
step at minimum). -/
def scanBlocks : Nat → List Char → Nat → Nat → List EmbeddedCodeBlock
  | 0, _, _, _ => []
  | fuel + 1, cs, pos, idx =>
    match matchAt cs with
    | some (code, len) =>
      ⟨⟨code⟩, pos, len, idx⟩ :: scanBlocks fuel (cs.drop len) (pos + len) (idx + 1)
    | Option.none =>
      match cs with
      | [] => []
      | _ :: restcs => scanBlocks fuel restcs (pos + 1) idx

/-- `EmbeddedCodeBlock.extract_all`. -/
def extract_all (markdown : String) : List EmbeddedCodeBlock :=
  scanBlocks markdown.data.length markdown.data 0 0

/-- Python slice `s[a:b]` on character offsets. -/
def strSlice (s : String) (a b : Nat) : String :=
  String.mk ((s.data.drop a).take (b - a))

/-- Python slice `s[a:]`. -/
def strDrop (s : String) (a : Nat) : String := String.mk (s.data.drop a)

/-! ## `S3Client` -/

/-- The bucket plus the objects durably stored in it (key, payload bytes,
content type).  Bucket creation is connection setup and not modelled. -/
structure S3State where
  bucket : String
  objects : List (String × (List Nat × String))
deriving DecidableEq, Repr

/-- A `store_key` outcome: the store afterwards, the public URL returned,
and whether a `put_object` byte transfer was performed. -/
structure StoreResult where
  state : S3State
  url : String
  uploaded : Bool
deriving DecidableEq, Repr

/-- The public URL f-string `https://{bucket}.s3.amazonaws.com/{key}`. -/
def s3url (bucket key : String) : String :=
  "https://" ++ bucket ++ ".s3.amazonaws.com/" ++ key

namespace S3Client

/-- `key_exists`: `head_object` succeeds exactly on stored keys. -/
def key_exists (s : S3State) (key : String) : Bool :=
  (s.objects.find? (fun p => p.1 == key)).isSome

/-- `store_key`: upload only when the key does not exist yet; either way
return the public URL. -/
def store_key (s : S3State) (key : String) (data : List Nat)
    (content_type : String) : StoreResult :=
  if key_exists s key then ⟨s, s3url s.bucket key, false⟩
  else ⟨⟨s.bucket, s.objects ++ [(key, (data, content_type))]⟩,
        s3url s.bucket key, true⟩

end S3Client

/-! ## Renderers -/

/-- One character of Python `html.escape(url)` (with quoting): the
sequential replacements `&`, `<`, `>`, `"`, `'` amount to this per-character
map, since no replacement output is itself re-replaced. -/
def escChar (c : Char) : List Char :=
  if c = '&' then "&amp;".data
  else if c = '<' then "&lt;".data
  else if c = '>' then "&gt;".data
  else if c = Char.ofNat 34 then "&quot;".data
  else if c = Char.ofNat 39 then "&#x27;".data
  else [c]

/-- Python `html.escape(url)` (with quoting). -/
def htmlEscape (s : String) : String := String.mk (s.data.flatMap escChar)

/-- `isinstance(x, Artist)`: `AxesImage` is an `Artist` subclass. -/
def isArtist (v : PyVal) : Bool := v == .artist || v == .axesImage

/-- The `CodeResultRenderer` interface.  `matches` may raise (the plot
renderer probes with a subscript); `render` produces payload bytes. -/
structure CodeResultRenderer where
  content_type : String
  matchesFn : List PyObj → PyVal → Except PyErr Bool
  render : List PyObj → PyVal → List Nat
  html : String → String

/-- `PlotRenderer`: matches an `AxesImage`, or any value whose `[0]` element
is an `Artist`; `IndexError`/`TypeError` from the probe mean "no match",
every other exception escapes.  `render` saves the current global pyplot
figure as PNG — opaque bytes in the model. -/
def PlotRenderer : CodeResultRenderer where
  content_type := "image/png"
  matchesFn := fun objs result =>
    if result == .axesImage then .ok true
    else
      match getItem objs result (.int 0) with
      | .ok x => .ok (isArtist x)
      | .error e =>
        if e == .indexError || e == .typeError then .ok false else .error e
  render := fun _ _ => [137, 80, 78, 71]
  html := fun url => "<img src=\x22" ++ htmlEscape url ++ "\x22 />"

/-- `AudioRenderer`: matches exactly `zounds.AudioSamples`; `render` encodes
to OGG — opaque bytes in the model. -/
def AudioRenderer : CodeResultRenderer where
  content_type := "audio/ogg"
  matchesFn := fun _ result => .ok (result == .audioSamples)
  render := fun _ _ => [79, 103, 103, 83]
  html := fun url => "<audio controls src=\x22" ++ htmlEscape url ++ "\x22></audio>"

/-- `RendererLocator.find_renderer`: first renderer (in registration order)
whose `matches` accepts the value; `None` when the predicates are exhausted.
A `matches` exception escapes the lookup. -/
def find_renderer (objs : List PyObj) :
    List CodeResultRenderer → PyVal → Except PyErr (Option CodeResultRenderer)
  | [], _ => .ok Option.none
  | r :: rest, v =>
    match r.matchesFn objs v with
    | .error e => .error e
    | .ok true => .ok (some r)
    | .ok false => find_renderer objs rest v

/-- The renderer list `__main__` registers: plot first, audio second. -/
def defaultRenderers : List CodeResultRenderer := [PlotRenderer, AudioRenderer]

/-! ## `render_html` -/

/-- The cache `result_cache`: Python dict from hex key to the pair
(address of the snapshot dict object, last value). -/
abbrev Cache := List (String × (Nat × PyVal))

/-- Cache lookup. -/
def cacheGet (c : Cache) (k : String) : Option (Nat × PyVal) :=
  (c.find? (fun p => p.1 == k)).map (fun p => p.2)

/-- Cache assignment `result_cache[key] = entry`. -/
def cacheSet (c : Cache) (k : String) (v : Nat × PyVal) : Cache :=
  if (c.find? (fun p => p.1 == k)).isSome then
    c.map (fun p => if p.1 == k then (k, v) else p)
  else c ++ [(k, v)]

/-- The loop-carried state of `render_html`'s `for block in code_blocks`
loop: the working-namespace address `g`, the write cursor, the chained
fingerprint, the output chunks, the cache, the heaps, the artifact store,
and (instrumentation for the performance contract) the number of Evaluator
invocations so far. -/
structure LoopState where
  g : Nat
  currentPos : Nat
  preceeding : String
  chunks : List String
  cache : Cache
  pystate : PyState
  s3 : S3State
  evalCount : Nat
deriving DecidableEq, Repr

/-- The renderer section of the loop body: locate a renderer; on a match
render, store the artifact under the block's key and emit the embed markup;
otherwise emit the backticked textual fallback when the value is present and
nothing when it is absent.  Returns the chunk suffix (at most one chunk). -/
def renderStep (renderers : List CodeResultRenderer) (objs : List PyObj)
    (s3 : S3State) (key : String) (result : PyVal) :
    Except PyErr (List String × S3State) :=
  match find_renderer objs renderers result with
  | .error e => .error e
  | .ok (some r) =>
    let bio := r.render objs result
    let sr := S3Client.store_key s3 key bio r.content_type
    .ok ([r.html sr.url], sr.state)
  | .ok Option.none =>
    if result == PyVal.none then .ok ([], s3)
    else .ok (["\x60" ++ pyStr objs result ++ "\x60"], s3)

/-- The tail of the loop body shared by the hit and miss branches: renderer
lookup (whose exception propagates with the state as mutated so far), then
`del g['_']` on the *current* `g` — which on a hit is the cached snapshot
dict itself. -/
def finishBlock (renderers : List CodeResultRenderer) (key : String)
    (chunks1 : List String) (pos1 : Nat) (ga : Nat) (result : PyVal)
    (cache : Cache) (ps : PyState) (s3 : S3State) (evalCount : Nat) :
    Except (PyErr × LoopState) LoopState :=
  match renderStep renderers ps.objs s3 key result with
  | .error e => .error (e, ⟨ga, pos1, key, chunks1, cache, ps, s3, evalCount⟩)
  | .ok (extra, s3') =>
    let ps' := setDictAt ps ga (dictDel (dictAt ps ga) "_")
    .ok ⟨ga, pos1, key, chunks1 ++ extra, cache, ps', s3', evalCount⟩

/-- One iteration of `for block in code_blocks`: append the preceding text
and the fenced re-rendering, advance the cursor past the block's span plus
one, chain the fingerprint, then either serve the cache hit (aliasing `g` to
the stored snapshot) or evaluate `block.get_result(dict(**g))` and store
`(dict(**g), result)` before rendering. -/
def processBlock (ex : ExecFn) (renderers : List CodeResultRenderer)
    (content : String) (b : EmbeddedCodeBlock) (st : LoopState) :
    Except (PyErr × LoopState) LoopState :=
  match cacheGet st.cache (b.content_key st.preceeding) with
  | some (ga, result) =>
    finishBlock renderers (b.content_key st.preceeding)
      (st.chunks ++ [strSlice content st.currentPos b.start, b.markdown])
      (b.endPos + 1) ga result st.cache st.pystate st.s3 st.evalCount
  | Option.none =>
    -- `dict(**g)` allocates the fresh working copy at address
    -- `st.pystate.dicts.length`; the partially mutated copy is kept on
    -- failure, mirroring that the allocation has happened when `exec` raises
    match CodeBlock.get_result ex b.block (dictAt st.pystate st.g)
        st.pystate.objs with
    | .error e =>
      .error (e, { st with
        chunks := st.chunks ++ [strSlice content st.currentPos b.start, b.markdown],
        currentPos := b.endPos + 1,
        preceeding := b.content_key st.preceeding,
        pystate := { st.pystate with
          dicts := st.pystate.dicts ++ [dictAt st.pystate st.g] } })
    | .ok (g2, objs2, result) =>
      -- the exec'd copy lands at address `na`; the cached snapshot
      -- `dict(**g)` is a second fresh dict at address `na + 1`
      finishBlock renderers (b.content_key st.preceeding)
        (st.chunks ++ [strSlice content st.currentPos b.start, b.markdown])
        (b.endPos + 1) st.pystate.dicts.length result
        (cacheSet st.cache (b.content_key st.preceeding)
          (st.pystate.dicts.length + 1, result))
        { dicts := (st.pystate.dicts ++ [dictAt st.pystate st.g]).set
            st.pystate.dicts.length g2 ++ [g2],
          objs := objs2 } st.s3 (st.evalCount + 1)

/-- Run the loop over the remaining blocks. -/
def runBlocks (ex : ExecFn) (renderers : List CodeResultRenderer)
    (content : String) : List EmbeddedCodeBlock → LoopState →
    Except (PyErr × LoopState) LoopState
  | [], st => .ok st
  | b :: bs, st =>
    match processBlock ex renderers content b st with
    | .error es => .error es
    | .ok st1 => runBlocks ex renderers content bs st1

/-- The loop state `render_html` starts from: `g = {}` freshly allocated,
cursor 0, empty chain seed, no chunks. -/
def initLoopState (s3 : S3State) (result_cache : Cache) (ps : PyState) : LoopState :=
  let (ps0, ga) := allocDict ps []
  ⟨ga, 0, "", [], result_cache, ps0, s3, 0⟩

deriving instance DecidableEq for Except

/-- A whole render pass: either the composed output document (which the
source then writes to the output path — an `.error` outcome means the
exception escaped `render_html` and no output file was written), plus the
cache, heap and artifact store as left behind, and the Evaluator invocation
count. -/
structure RenderResult where
  outcome : Except PyErr String
  cache : Cache
  pystate : PyState
  s3 : S3State
  evalCount : Nat
deriving DecidableEq, Repr

/-- `render_html`: extract the blocks; with none, emit the input unchanged;
otherwise run the loop and join the chunk list with `'\n'`, appending the
trailing document text past the cursor. -/
def render_html (ex : ExecFn) (renderers : List CodeResultRenderer)
    (s3 : S3State) (result_cache : Cache) (ps : PyState) (content : String) :
    RenderResult :=
  let code_blocks := extract_all content
  if code_blocks.isEmpty then
    ⟨.ok content, result_cache, ps, s3, 0⟩
  else
    match runBlocks ex renderers content code_blocks
        (initLoopState s3 result_cache ps) with
    | .error (e, stE) => ⟨.error e, stE.cache, stE.pystate, stE.s3, stE.evalCount⟩
    | .ok stF =>
      let chunks := stF.chunks ++ [strDrop content stF.currentPos]
      ⟨.ok (String.intercalate "\n" chunks), stF.cache, stF.pystate, stF.s3,
       stF.evalCount⟩

/-! ## Projections of loop outcomes

A Python exception escaping the loop leaves the caller-owned cache, the
heap and the store as already mutated; these projections read a loop
outcome's components uniformly for the success and the escape case. -/

/-- The cache after a loop outcome. -/
def loopCache : Except (PyErr × LoopState) LoopState → Cache
  | .ok st => st.cache
  | .error (_, st) => st.cache

/-- The heap after a loop outcome. -/
def loopPyState : Except (PyErr × LoopState) LoopState → PyState
  | .ok st => st.pystate
  | .error (_, st) => st.pystate

/-- The Evaluator invocation count after a loop outcome. -/
def loopEvalCount : Except (PyErr × LoopState) LoopState → Nat
  | .ok st => st.evalCount
  | .error (_, st) => st.evalCount

/-! ## Concrete scenarios used by counterexamples and witnesses -/

/-- A one-block document. -/
def c1doc : String := "A\n```python: _ = 1\n```\nB"

/-- Models the fragment `_ = 1`. -/
def c1ex : ExecFn := fun _ d objs => .ok (dictSet d "_" (.int 1), objs)

/-- A fresh, empty artifact store. -/
def s3empty : S3State := ⟨"bkt", []⟩

/-- A fresh, empty process heap. -/
def psEmpty : PyState := ⟨[], []⟩

/-- Fallback block value for `headD`. -/
def blockDflt : EmbeddedCodeBlock := ⟨⟨""⟩, 0, 0, 0⟩

/-- A one-block document whose fragment binds two names. -/
def c3doc : String := "X\n```python: a = 1\n_ = 2\n```\nY"

/-- Models the fragment `a = 1` / `_ = 2`. -/
def c3ex : ExecFn := fun _ d objs =>
  .ok (dictSet (dictSet d "a" (.int 1)) "_" (.int 2), objs)

/-- First render pass over `c3doc` from an empty cache. -/
def c3pass1 : RenderResult := render_html c3ex defaultRenderers s3empty [] psEmpty c3doc

/-- Second render pass over the unmodified `c3doc` with the first pass's
cache, heap and store persisted. -/
def c3pass2 : RenderResult :=
  render_html c3ex defaultRenderers c3pass1.s3 c3pass1.cache c3pass1.pystate c3doc

/-- The first (only) block's chained cache key for `c3doc`. -/
def c3key : String := ((extract_all c3doc).headD blockDflt).content_key ""

/-- A two-block document: the first block allocates a mutable list, the
second mutates it in place. -/
def c4doc : String := "A\n```python: a = [0]\n```\nB\n```python: a[0] = 1\n```\nC"

/-- Models the two fragments: `a = [0]` allocates a fresh list object and
binds it; `a[0] = 1` mutates that same object in place through the shared
reference. -/
def c4ex : ExecFn := fun src d objs =>
  if src == "a = [0]" then
    .ok (dictSet d "a" (.ref objs.length), objs ++ [.list [.int 0]])
  else if src == "a[0] = 1" then
    match dictGet d "a" with
    | some (.ref a) => .ok (d, objs.set a (.list [.int 1]))
    | _ => .error (.other "name a is not defined")
  else .error (.other "unexpected fragment")

/-- The full pass over `c4doc`. -/
def c4pass : RenderResult := render_html c4ex defaultRenderers s3empty [] psEmpty c4doc

/-- The first block's chained cache key for `c4doc`. -/
def c4key : String := ((extract_all c4doc).headD blockDflt).content_key ""

/-- The loop state right after the first block of `c4doc` — the moment its
snapshot is stored in the cache. -/
def c4mid : Except (PyErr × LoopState) LoopState :=
  runBlocks c4ex defaultRenderers c4doc ((extract_all c4doc).take 1)
    (initLoopState s3empty [] psEmpty)

/-- An Evaluator in which every fragment raises. -/
def c6ex : ExecFn := fun _ _ _ => .error (.other "boom")

/-- Models the fragment `_ = \x7b1: 2\x7d`: binds `_` to a fresh Python dict
object with the single key `1`. -/
def c10ex : ExecFn := fun _ d objs =>
  .ok (dictSet d "_" (.ref objs.length), objs ++ [.dict [(.int 1, .int 2)]])

/-- The one block of `c1doc`. -/
def c1b : EmbeddedCodeBlock := ⟨⟨"_ = 1\n"⟩, 2, 20, 0⟩

/-- The output `render_html` actually produces for `c1doc` under `c1ex`. -/
def c1out : String := "A\n\n\n```python\n_ = 1\n```\n\n\x601\x60\nB"

/-- The output the claim asserts for `c1doc`: the in-order *plain*
concatenation of the text before the block, the block's fenced re-rendering,
its textual fallback, and the input text after the block's span —
byte-identical to the input outside the replaced span, with no inserted
bytes. -/
def c1claimedOut : String :=
  strSlice c1doc 0 c1b.start ++ c1b.markdown ++ "\x601\x60" ++
    strDrop c1doc c1b.endPos

/-! ## Splice-shape and key-chain vocabulary (used to state C1 and C5) -/

/-- The chunk list the loop builds for a block list, parameterised by the
per-block embed/fallback chunk suffixes `es` (each empty or a singleton):
for each block, the input text from the cursor up to the block's start, the
block's fenced re-rendering, then that block's suffix, with the cursor
advancing to `end + 1`. -/
def interleaveChunks (content : String) :
    Nat → List EmbeddedCodeBlock → List (List String) → List String
  | _, [], _ => []
  | _, _ :: _, [] => []
  | cur, b :: bs, e :: es =>
    strSlice content cur b.start :: b.markdown ::
      (e ++ interleaveChunks content (b.endPos + 1) bs es)

/-- The cursor position after processing a block list. -/
def endCursor : Nat → List EmbeddedCodeBlock → Nat
  | cur, [] => cur
  | _, b :: bs => endCursor (b.endPos + 1) bs

/-- The chained cache keys of a block list, seeded by `prec`. -/
def keyChain (prec : String) : List EmbeddedCodeBlock → List String
  | [] => []
  | b :: bs => b.content_key prec :: keyChain (b.content_key prec) bs

/-! ## C2 — cache key derivation -/

/-- `byteHex` always yields two characters. -/
lemma byteHex_length (b : Nat) : (byteHex b).length = 2 := rfl

/-- Hex-encoding doubles the length. -/
lemma flatMap_byteHex_length (l : List Nat) :
    (l.flatMap byteHex).length = 2 * l.length := by
  induction l with
  | nil => simp
  | cons a t ih => simp [List.flatMap_cons, ih, byteHex]; omega

/-- A SHA-256 digest is 32 bytes. -/
lemma sha256bytes_length (msg : List Nat) : (sha256bytes msg).length = 32 := by
  simp [sha256bytes, wordBytes]

/-- A SHA-256 hexdigest is 64 characters. -/
lemma sha256hex_length (msg : List Nat) : (sha256hex msg).length = 64 := by
  have h : (sha256hex msg).length = ((sha256bytes msg).flatMap byteHex).length := rfl
  rw [h, flatMap_byteHex_length, sha256bytes_length]

/-- C2 (corrected): the cache key is *not* a function of only the previous
fingerprint and the normalized text — two blocks with the same normalized
text (`"x"`) and the same preceding fingerprint (`""`) but positions 0 and 1
receive different keys, because `content_key` seeds the digest with
`f'position: {position}'`. -/
theorem content_key_depends_on_position :
    EmbeddedCodeBlock.content_key ⟨⟨"x"⟩, 0, 1, 0⟩ "" ≠
      EmbeddedCodeBlock.content_key ⟨⟨"x"⟩, 0, 1, 1⟩ "" := by decide

/-- C2 (amended): the cache key is a fixed-length (64 hex character) digest
that is a function of exactly three inputs — the block's position index, the
fingerprint carried from the previous block, and the block's normalized
text — so two blocks agreeing on all three (whatever their raw spans or
offsets) receive the same key. -/
theorem content_key_position_chain_text :
    (∀ (b₁ b₂ : EmbeddedCodeBlock) (prec : String),
        b₁.position = b₂.position →
        b₁.block.normalized = b₂.block.normalized →
        b₁.content_key prec = b₂.content_key prec) ∧
    (∀ (b : EmbeddedCodeBlock) (prec : String),
        (b.content_key prec).length = 64) := by
  constructor
  · intro b₁ b₂ prec h1 h2
    simp only [EmbeddedCodeBlock.content_key, h1, h2]
  · intro b prec
    exact sha256hex_length _

/-- Witness for `content_key_position_chain_text` at concrete blocks: same
position, same normalized text, different raw spans. -/
theorem content_key_position_chain_text_witness :
    EmbeddedCodeBlock.content_key ⟨⟨"x\n"⟩, 0, 9, 4⟩ "seed" =
      EmbeddedCodeBlock.content_key ⟨⟨"\nx\n"⟩, 55, 7, 4⟩ "seed" ∧
    (EmbeddedCodeBlock.content_key ⟨⟨"x\n"⟩, 0, 9, 4⟩ "seed").length = 64 :=
  ⟨content_key_position_chain_text.1 _ _ "seed" rfl (by decide),
   content_key_position_chain_text.2 _ "seed"⟩

/-! ## C8 / C9 — artifact store idempotence -/

/-- After `store_key` the key always exists. -/
lemma key_exists_after_store (s : S3State) (key : String) (data : List Nat)
    (ct : String) :
    S3Client.key_exists (S3Client.store_key s key data ct).state key = true := by
  by_cases h : S3Client.key_exists s key = true
  · simp [S3Client.store_key, h]
  · have h' : S3Client.key_exists s key = false := by
      cases hb : S3Client.key_exists s key
      · rfl
      · exact absurd hb h
    have hfind : s.objects.find? (fun p => p.1 == key) = Option.none := by
      unfold S3Client.key_exists at h'
      cases hf : s.objects.find? (fun p => p.1 == key) with
      | none => rfl
      | some p => rw [hf] at h'; simp at h'
    simp only [S3Client.store_key, h', Bool.false_eq_true, if_false]
    simp [S3Client.key_exists, List.find?_append, hfind]

/-- C8 (confirmed): calling `store_key` twice with the same key and content
performs the byte upload at most once — the second call sees the key exists
and performs no transfer — and both calls return the same public URL. -/
theorem store_key_idempotent (s : S3State) (key : String) (data : List Nat)
    (ct : String) :
    (S3Client.store_key s key data ct).url =
      (S3Client.store_key (S3Client.store_key s key data ct).state key data ct).url ∧
    (S3Client.store_key (S3Client.store_key s key data ct).state key data ct).uploaded
      = false ∧
    ((if (S3Client.store_key s key data ct).uploaded then 1 else 0) +
     (if (S3Client.store_key (S3Client.store_key s key data ct).state key data
          ct).uploaded then 1 else 0) ≤ 1) := by
  have hex : S3Client.key_exists (S3Client.store_key s key data ct).state key = true :=
    key_exists_after_store s key data ct
  have hurl : ∀ (s' : S3State) (d' : List Nat) (ct' : String),
      (S3Client.store_key s' key d' ct').url = s3url s'.bucket key := by
    intro s' d' ct'
    unfold S3Client.store_key
    by_cases h : S3Client.key_exists s' key = true <;> simp [h]
  have hbucket : (S3Client.store_key s key data ct).state.bucket = s.bucket := by
    unfold S3Client.store_key
    by_cases h : S3Client.key_exists s key = true <;> simp [h]
  have hupl : ∀ (s' : S3State), S3Client.key_exists s' key = true →
      (S3Client.store_key s' key data ct).uploaded = false := by
    intro s' h
    simp [S3Client.store_key, h]
  refine ⟨?_, hupl _ hex, ?_⟩
  · rw [hurl, hurl, hbucket]
  · rw [hupl _ hex]
    by_cases h1 : (S3Client.store_key s key data ct).uploaded = true <;> simp [h1]

/-- C9 (confirmed): for a key that already exists, `store_key` uploads
nothing and leaves the store unchanged whatever the payload and content
type — differing content is silently discarded — and the returned URL is
computed solely from the bucket name and the key, so it is identical for
any payload. -/
theorem store_key_existing_key_discards_content (s : S3State) (key : String)
    (d d' : List Nat) (ct ct' : String)
    (h : S3Client.key_exists s key = true) :
    S3Client.store_key s key d ct = ⟨s, s3url s.bucket key, false⟩ ∧
    (S3Client.store_key s key d ct).url = (S3Client.store_key s key d' ct').url := by
  refine ⟨?_, ?_⟩ <;> simp [S3Client.store_key, h]

/-- Witness for `store_key_existing_key_discards_content`: a store holding
`"k"` with payload `[1]`; storing `[2]` under `"k"` is a no-op returning the
same URL as storing `[3]`. -/
theorem store_key_existing_key_discards_content_witness :
    S3Client.key_exists ⟨"b", [("k", ([1], "t"))]⟩ "k" = true ∧
    (S3Client.store_key ⟨"b", [("k", ([1], "t"))]⟩ "k" [2] "u" =
        ⟨⟨"b", [("k", ([1], "t"))]⟩, s3url "b" "k", false⟩ ∧
      (S3Client.store_key ⟨"b", [("k", ([1], "t"))]⟩ "k" [2] "u").url =
        (S3Client.store_key ⟨"b", [("k", ([1], "t"))]⟩ "k" [3] "v").url) :=
  ⟨by decide,
   store_key_existing_key_discards_content ⟨"b", [("k", ([1], "t"))]⟩ "k" [2] [3]
     "u" "v" (by decide)⟩

/-! ## C7 — renderer lookup and fallback -/

/-- First-match characterisation of a successful lookup. -/
lemma find_renderer_some (objs : List PyObj) :
    ∀ (rs : List CodeResultRenderer) (v : PyVal) (r : CodeResultRenderer),
      find_renderer objs rs v = .ok (some r) →
      ∃ i, rs.get? i = some r ∧ r.matchesFn objs v = .ok true ∧
        ∀ r' ∈ rs.take i, r'.matchesFn objs v = .ok false := by
  intro rs
  induction rs with
  | nil => intro v r h; simp [find_renderer] at h
  | cons r0 rest ih =>
    intro v r h
    rw [find_renderer] at h
    cases hm : r0.matchesFn objs v with
    | error e => rw [hm] at h; cases h
    | ok bb =>
      cases bb with
      | true =>
        rw [hm] at h
        have hr : r0 = r := by
          injection h with h'
          injection h'
        subst hr
        exact ⟨0, rfl, hm, by simp⟩
      | false =>
        rw [hm] at h
        obtain ⟨i, h1, h2, h3⟩ := ih v r h
        refine ⟨i + 1, by simpa using h1, h2, ?_⟩
        intro r' hr'
        rw [List.take_succ_cons, List.mem_cons] at hr'
        rcases hr' with rfl | hr'
        · exact hm
        · exact h3 _ hr'

/-- A lookup returns `None` exactly when no registered predicate accepts. -/
lemma find_renderer_none (objs : List PyObj) :
    ∀ (rs : List CodeResultRenderer) (v : PyVal),
      find_renderer objs rs v = .ok Option.none ↔
        ∀ r ∈ rs, r.matchesFn objs v = .ok false := by
  intro rs
  induction rs with
  | nil => intro v; simp [find_renderer]
  | cons r0 rest ih =>
    intro v
    constructor
    · intro h r hr
      rw [find_renderer] at h
      cases hm : r0.matchesFn objs v with
      | error e => rw [hm] at h; cases h
      | ok bb =>
        cases bb with
        | true => rw [hm] at h; cases h
        | false =>
          rw [hm] at h
          rcases List.mem_cons.mp hr with rfl | hr2
          · exact hm
          · exact (ih v).mp h _ hr2
    · intro h
      rw [find_renderer]
      rw [h r0 (by simp)]
      exact (ih v).mpr (fun r hr => h r (by simp [hr]))

/-- C7 (confirmed): renderer lookup returns the first renderer in
registration order whose `matches` predicate accepts the value and `None`
when no predicate accepts; and when lookup returns `None` the orchestrator
emits the backticked textual representation for a present value and nothing
for an absent one. -/
theorem find_renderer_first_match_and_fallback :
    (∀ (objs : List PyObj) (rs : List CodeResultRenderer) (v : PyVal)
        (r : CodeResultRenderer),
        find_renderer objs rs v = .ok (some r) →
        ∃ i, rs.get? i = some r ∧ r.matchesFn objs v = .ok true ∧
          ∀ r' ∈ rs.take i, r'.matchesFn objs v = .ok false) ∧
    (∀ (objs : List PyObj) (rs : List CodeResultRenderer) (v : PyVal),
        find_renderer objs rs v = .ok Option.none ↔
          ∀ r ∈ rs, r.matchesFn objs v = .ok false) ∧
    (∀ (renderers : List CodeResultRenderer) (objs : List PyObj) (s3 : S3State)
        (key : String) (result : PyVal),
        find_renderer objs renderers result = .ok Option.none →
        renderStep renderers objs s3 key result =
          if result == PyVal.none then .ok ([], s3)
          else .ok (["\x60" ++ pyStr objs result ++ "\x60"], s3)) := by
  refine ⟨find_renderer_some, find_renderer_none, ?_⟩
  intro renderers objs s3 key result h
  unfold renderStep
  rw [h]

/-- Witness for `find_renderer_first_match_and_fallback`: with the default
registration order `[PlotRenderer, AudioRenderer]`, an `AudioSamples` value
selects the audio renderer at index 1 with the plot predicate having
declined; and an `int` result with no matching renderer takes the backtick
fallback while an absent result emits nothing. -/
theorem find_renderer_first_match_and_fallback_witness :
    (∃ i, defaultRenderers.get? i = some AudioRenderer ∧
       AudioRenderer.matchesFn [] PyVal.audioSamples = .ok true ∧
       ∀ r' ∈ defaultRenderers.take i, r'.matchesFn [] PyVal.audioSamples = .ok false) ∧
    renderStep defaultRenderers [] s3empty "k" (.int 2) =
      .ok (["\x602\x60"], s3empty) ∧
    renderStep defaultRenderers [] s3empty "k" PyVal.none = .ok ([], s3empty) := by
  refine ⟨find_renderer_first_match_and_fallback.1 [] defaultRenderers
    PyVal.audioSamples AudioRenderer rfl, ?_, ?_⟩
  · rw [find_renderer_first_match_and_fallback.2.2 defaultRenderers [] s3empty "k"
      (.int 2) rfl]
    rfl
  · rw [find_renderer_first_match_and_fallback.2.2 defaultRenderers [] s3empty "k"
      PyVal.none rfl]
    rfl

/-! ## C10 — non-total plot probe -/

/-- C10 (confirmed): the plot renderer's probe suppresses only `IndexError`
and `TypeError`; subscripting a non-empty Python dict without key `0` raises
`KeyError`, which escapes the predicate and the whole renderer lookup, and a
render pass whose block produces such a value aborts with that `KeyError`
instead of taking the textual fallback. -/
theorem plot_matches_narrow_suppression :
    (∀ (objs : List PyObj) (v : PyVal) (e : PyErr), v ≠ PyVal.axesImage →
        getItem objs v (.int 0) = .error e → e ≠ .indexError → e ≠ .typeError →
        PlotRenderer.matchesFn objs v = .error e) ∧
    PlotRenderer.matchesFn [PyObj.dict [(.int 1, .int 2)]] (.ref 0) =
      .error .keyError ∧
    find_renderer [PyObj.dict [(.int 1, .int 2)]] defaultRenderers (.ref 0) =
      .error .keyError ∧
    (render_html c10ex defaultRenderers s3empty [] psEmpty c1doc).outcome =
      .error .keyError := by
  refine ⟨?_, rfl, rfl, by decide⟩
  intro objs v e hv hget hi ht
  show PlotRenderer.matchesFn objs v = .error e
  have hbeq : (v == PyVal.axesImage) = false := by
    simp [hv]
  simp only [PlotRenderer, hbeq, if_false, hget, Bool.false_eq_true]
  have hib : (e == PyErr.indexError) = false := by simp [hi]
  have htb : (e == PyErr.typeError) = false := by simp [ht]
  simp [hib, htb]

/-- Witness for `plot_matches_narrow_suppression`: the `KeyError` from
probing an empty Python dict escapes `matches`. -/
theorem plot_matches_narrow_suppression_witness :
    PlotRenderer.matchesFn [PyObj.dict []] (.ref 0) = .error .keyError :=
  plot_matches_narrow_suppression.1 [PyObj.dict []] (.ref 0) .keyError
    (by decide) (by decide) (by decide) (by decide)

/-! ## C1 — output splicing -/

/-- C1 (corrected): the emitted document is not the plain concatenation of
those segments — `render_html` joins its chunk list with `'\n'` (inserting
newlines between segments) and advances the cursor to `block.end + 1`
(dropping the input byte at `block.end`). -/
theorem render_output_not_plain_concatenation :
    (render_html c1ex defaultRenderers s3empty [] psEmpty c1doc).outcome =
      .ok c1out ∧ c1out ≠ c1claimedOut := by
  constructor
  · decide
  · decide
/-! ## Loop-shape lemmas -/

/-- A renderer step contributes at most one chunk. -/
lemma renderStep_len (renderers : List CodeResultRenderer) (objs : List PyObj)
    (s3 : S3State) (key : String) (result : PyVal) (extra : List String)
    (s3' : S3State)
    (h : renderStep renderers objs s3 key result = .ok (extra, s3')) :
    extra.length ≤ 1 := by
  unfold renderStep at h
  cases hf : find_renderer objs renderers result with
  | error e => rw [hf] at h; cases h
  | ok orr =>
    rw [hf] at h
    cases orr with
    | some r =>
      injection h with h2
      injection h2 with hA hB
      subst hA
      simp
    | none =>
      by_cases hn : (result == PyVal.none) = true
      · rw [if_pos hn] at h
        injection h with h2
        injection h2 with hA hB
        subst hA
        simp
      · rw [if_neg hn] at h
        injection h with h2
        injection h2 with hA hB
        subst hA
        simp

/-- The tail of a loop iteration appends the renderer chunk suffix and
settles the cursor. -/
lemma finishBlock_shape (renderers : List CodeResultRenderer) (key : String)
    (chunks1 : List String) (pos1 : Nat) (ga : Nat) (result : PyVal)
    (cache : Cache) (ps : PyState) (s3 : S3State) (n : Nat) (st' : LoopState)
    (h : finishBlock renderers key chunks1 pos1 ga result cache ps s3 n = .ok st') :
    ∃ e : List String, e.length ≤ 1 ∧ st'.chunks = chunks1 ++ e ∧
      st'.currentPos = pos1 := by
  unfold finishBlock at h
  cases hr : renderStep renderers ps.objs s3 key result with
  | error e => rw [hr] at h; cases h
  | ok pr =>
    obtain ⟨extra, s3x⟩ := pr
    rw [hr] at h
    injection h with h2
    subst h2
    exact ⟨extra, renderStep_len _ _ _ _ _ _ _ hr, rfl, rfl⟩

/-- Each loop iteration appends the two splice chunks plus at most one
renderer chunk and moves the cursor to `end + 1`. -/
lemma processBlock_shape (ex : ExecFn) (renderers : List CodeResultRenderer)
    (content : String) (b : EmbeddedCodeBlock) (st st' : LoopState)
    (h : processBlock ex renderers content b st = .ok st') :
    ∃ e : List String, e.length ≤ 1 ∧
      st'.chunks = st.chunks ++
        ([strSlice content st.currentPos b.start, b.markdown] ++ e) ∧
      st'.currentPos = b.endPos + 1 := by
  unfold processBlock at h
  cases hc : cacheGet st.cache (b.content_key st.preceeding) with
  | some pr =>
    obtain ⟨ga, result⟩ := pr
    rw [hc] at h
    obtain ⟨e, he, hch, hcur⟩ := finishBlock_shape _ _ _ _ _ _ _ _ _ _ _ h
    exact ⟨e, he, by rw [hch, List.append_assoc], hcur⟩
  | none =>
    rw [hc] at h
    cases hg : CodeBlock.get_result ex b.block (dictAt st.pystate st.g)
        st.pystate.objs with
    | error e => rw [hg] at h; cases h
    | ok tri =>
      obtain ⟨g2, objs2, result⟩ := tri
      rw [hg] at h
      obtain ⟨e, he, hch, hcur⟩ := finishBlock_shape _ _ _ _ _ _ _ _ _ _ _ h
      exact ⟨e, he, by rw [hch, List.append_assoc], hcur⟩

/-- A successful loop run builds exactly the interleaved chunk shape. -/
lemma runBlocks_shape (ex : ExecFn) (renderers : List CodeResultRenderer)
    (content : String) :
    ∀ (bs : List EmbeddedCodeBlock) (st st' : LoopState),
      runBlocks ex renderers content bs st = .ok st' →
      ∃ es : List (List String), es.length = bs.length ∧
        (∀ e ∈ es, e.length ≤ 1) ∧
        st'.chunks = st.chunks ++ interleaveChunks content st.currentPos bs es ∧
        st'.currentPos = endCursor st.currentPos bs := by
  intro bs
  induction bs with
  | nil =>
    intro st st' h
    rw [runBlocks] at h
    injection h with h2
    subst h2
    exact ⟨[], rfl, by simp, by simp [interleaveChunks], rfl⟩
  | cons b bs ih =>
    intro st st' h
    rw [runBlocks] at h
    cases hp : processBlock ex renderers content b st with
    | error es2 => rw [hp] at h; cases h
    | ok st1 =>
      rw [hp] at h
      obtain ⟨e, he, hch, hcur⟩ := processBlock_shape _ _ _ _ _ _ hp
      obtain ⟨es, hlen, hsmall, hch2, hcur2⟩ := ih st1 st' h
      refine ⟨e :: es, by simp [hlen], ?_, ?_, ?_⟩
      · intro x hx
        rcases List.mem_cons.mp hx with rfl | hx2
        · exact he
        · exact hsmall _ hx2
      · rw [hch2, hch, hcur]
        simp [interleaveChunks, List.append_assoc]
      · rw [hcur2, hcur]
        rfl

/-- C1 (amended): for every successful pass over a document with at least
one block, the output is the *newline-joined* concatenation of, per block,
the input text from the cursor to the block's start and the block's fenced
re-rendering and its (at most one) embed/fallback chunk, and finally the
input text from one byte past the last block's span: a single newline is
inserted between adjacent segments, and the single input byte at each
block's `end` offset is dropped. -/
theorem render_output_newline_joined_splice (ex : ExecFn)
    (renderers : List CodeResultRenderer) (s3 : S3State) (cache : Cache)
    (ps : PyState) (content out : String)
    (hne : (extract_all content).isEmpty = false)
    (hok : (render_html ex renderers s3 cache ps content).outcome = .ok out) :
    ∃ es : List (List String), es.length = (extract_all content).length ∧
      (∀ e ∈ es, e.length ≤ 1) ∧
      out = String.intercalate "\n"
        (interleaveChunks content 0 (extract_all content) es ++
         [strDrop content (endCursor 0 (extract_all content))]) := by
  simp only [render_html] at hok
  rw [hne] at hok
  simp only [Bool.false_eq_true, if_false] at hok
  cases hr : runBlocks ex renderers content (extract_all content)
      (initLoopState s3 cache ps) with
  | error pe =>
    obtain ⟨e, stE⟩ := pe
    rw [hr] at hok
    cases hok
  | ok stF =>
    rw [hr] at hok
    injection hok with h2
    obtain ⟨es, h1, hsmall, h3, h4⟩ := runBlocks_shape ex renderers content _ _ _ hr
    refine ⟨es, h1, hsmall, ?_⟩
    rw [← h2, h3, h4]
    have hch : (initLoopState s3 cache ps).chunks = [] := rfl
    have hcu : (initLoopState s3 cache ps).currentPos = 0 := rfl
    rw [hch, hcu, List.nil_append]

/-- Witness for `render_output_newline_joined_splice` at the one-block
document `c1doc`. -/
theorem render_output_newline_joined_splice_witness :
    (extract_all c1doc).isEmpty = false ∧
    ∃ es : List (List String), es.length = (extract_all c1doc).length ∧
      (∀ e ∈ es, e.length ≤ 1) ∧
      c1out = String.intercalate "\n"
        (interleaveChunks c1doc 0 (extract_all c1doc) es ++
         [strDrop c1doc (endCursor 0 (extract_all c1doc))]) :=
  ⟨by decide,
   render_output_newline_joined_splice c1ex defaultRenderers s3empty [] psEmpty
     c1doc c1out (by decide) (by decide)⟩

/-! ## Cache and dict-heap lemmas -/

/-- Lookup skips a non-matching head. -/
lemma cacheGet_cons_ne (hd : String × (Nat × PyVal)) (t : Cache) (k : String)
    (h : (hd.1 == k) = false) : cacheGet (hd :: t) k = cacheGet t k := by
  simp [cacheGet, List.find?_cons, h]

/-- Assignment passes over a non-matching head. -/
lemma cacheSet_cons_ne (hd : String × (Nat × PyVal)) (t : Cache) (k : String)
    (v : Nat × PyVal) (h : (hd.1 == k) = false) :
    cacheSet (hd :: t) k v = hd :: cacheSet t k v := by
  have hne : ¬ hd.1 = k := by simpa using h
  by_cases ht : (t.find? (fun p => p.1 == k)).isSome
  · simp [cacheSet, List.find?_cons, h, ht, hne]
  · simp [cacheSet, List.find?_cons, h, ht, hne]

/-- Assignment followed by lookup of the same key yields the entry. -/
lemma cacheGet_set_self (c : Cache) (k : String) (v : Nat × PyVal) :
    cacheGet (cacheSet c k v) k = some v := by
  induction c with
  | nil => simp [cacheGet, cacheSet]
  | cons hd t ih =>
    by_cases h : (hd.1 == k) = true
    · have heq : hd.1 = k := by simpa using h
      have hs : (((hd :: t).find? (fun p => p.1 == k)).isSome) = true := by
        simp [List.find?_cons, h]
      simp [cacheSet, hs, cacheGet, List.find?_cons, h, heq]
    · have hb : (hd.1 == k) = false := by
        cases hbe : (hd.1 == k)
        · rfl
        · exact absurd hbe h
      rw [cacheSet_cons_ne _ _ _ _ hb, cacheGet_cons_ne _ _ _ hb]
      exact ih

/-- An absent key has no matching entry. -/
lemma cacheGet_find_none (c : Cache) (k' : String)
    (hk : cacheGet c k' = Option.none) :
    c.find? (fun q => q.1 == k') = Option.none := by
  unfold cacheGet at hk
  cases hf : c.find? (fun q => q.1 == k') with
  | none => rfl
  | some q => rw [hf] at hk; simp at hk

/-- Inserting a fresh key preserves every present binding. -/
lemma cacheGet_set_fresh (c : Cache) (k' : String) (v : Nat × PyVal)
    (hk : cacheGet c k' = Option.none) (k : String) (p : Nat × PyVal)
    (hp : cacheGet c k = some p) :
    cacheGet (cacheSet c k' v) k = some p := by
  have hfind := cacheGet_find_none c k' hk
  unfold cacheSet
  rw [hfind]
  simp only [Option.isSome_none, Bool.false_eq_true, if_false]
  unfold cacheGet at hp ⊢
  rw [List.find?_append]
  cases hf : c.find? (fun q => q.1 == k) with
  | none => rw [hf] at hp; simp at hp
  | some q => rw [hf] at hp; simpa using hp

/-- `getD` ignores a `set` at a different index. -/
lemma getD_set_ne (l : List Dict) (a x : Nat) (d : Dict) (h : a ≠ x) :
    (l.set a d).getD x [] = l.getD x [] := by
  simp [List.getD_eq_getElem?_getD, List.getElem?_set_ne h]

/-- `getD` ignores appended elements at in-range indices. -/
lemma getD_append_left (l l2 : List Dict) (x : Nat) (hx : x < l.length) :
    (l ++ l2).getD x [] = l.getD x [] :=
  List.getD_append _ _ _ _ hx

/-! ## Loop-step projection lemmas -/

/-- The renderer section never touches the cache. -/
lemma loopCache_finishBlock (renderers : List CodeResultRenderer) (key : String)
    (chunks1 : List String) (pos1 : Nat) (ga : Nat) (result : PyVal)
    (cache : Cache) (ps : PyState) (s3 : S3State) (n : Nat) :
    loopCache (finishBlock renderers key chunks1 pos1 ga result cache ps s3 n)
      = cache := by
  unfold finishBlock
  cases renderStep renderers ps.objs s3 key result with
  | error e => rfl
  | ok pr => obtain ⟨extra, s3x⟩ := pr; rfl

/-- The renderer section never invokes the Evaluator. -/
lemma loopEvalCount_finishBlock (renderers : List CodeResultRenderer)
    (key : String) (chunks1 : List String) (pos1 : Nat) (ga : Nat)
    (result : PyVal) (cache : Cache) (ps : PyState) (s3 : S3State) (n : Nat) :
    loopEvalCount (finishBlock renderers key chunks1 pos1 ga result cache ps s3 n)
      = n := by
  unfold finishBlock
  cases renderStep renderers ps.objs s3 key result with
  | error e => rfl
  | ok pr => obtain ⟨extra, s3x⟩ := pr; rfl

/-- On success the renderer section hands back the working dict address, the
chained fingerprint, the cache and the Evaluator count it was given. -/
lemma finishBlock_ok_fields (renderers : List CodeResultRenderer) (key : String)
    (chunks1 : List String) (pos1 : Nat) (ga : Nat) (result : PyVal)
    (cache : Cache) (ps : PyState) (s3 : S3State) (n : Nat) (st' : LoopState)
    (h : finishBlock renderers key chunks1 pos1 ga result cache ps s3 n = .ok st') :
    st'.g = ga ∧ st'.preceeding = key ∧ st'.cache = cache ∧ st'.evalCount = n := by
  unfold finishBlock at h
  cases hr : renderStep renderers ps.objs s3 key result with
  | error e => rw [hr] at h; cases h
  | ok pr =>
    obtain ⟨extra, s3x⟩ := pr
    rw [hr] at h
    injection h with h2
    subst h2
    exact ⟨rfl, rfl, rfl, rfl⟩

/-- The renderer section's only heap write (`del g['_']`) hits the working
dict `ga`; every other dict is untouched. -/
lemma dictAt_finishBlock (renderers : List CodeResultRenderer) (key : String)
    (chunks1 : List String) (pos1 : Nat) (ga : Nat) (result : PyVal)
    (cache : Cache) (ps : PyState) (s3 : S3State) (n : Nat) (x : Nat)
    (hx : ga ≠ x) :
    dictAt (loopPyState
        (finishBlock renderers key chunks1 pos1 ga result cache ps s3 n)) x =
      dictAt ps x := by
  unfold finishBlock
  cases renderStep renderers ps.objs s3 key result with
  | error e => rfl
  | ok pr =>
    obtain ⟨extra, s3x⟩ := pr
    show dictAt (setDictAt ps ga (dictDel (dictAt ps ga) "_")) x = dictAt ps x
    simp [dictAt, setDictAt, List.getD_eq_getElem?_getD, List.getElem?_set_ne hx]

/-- Unfolding a cache hit. -/
lemma processBlock_hit (ex : ExecFn) (renderers : List CodeResultRenderer)
    (content : String) (b : EmbeddedCodeBlock) (st : LoopState) (ga : Nat)
    (result : PyVal)
    (h : cacheGet st.cache (b.content_key st.preceeding) = some (ga, result)) :
    processBlock ex renderers content b st =
      finishBlock renderers (b.content_key st.preceeding)
        (st.chunks ++ [strSlice content st.currentPos b.start, b.markdown])
        (b.endPos + 1) ga result st.cache st.pystate st.s3 st.evalCount := by
  unfold processBlock
  rw [h]

/-- Unfolding a cache miss. -/
lemma processBlock_miss_eq (ex : ExecFn) (renderers : List CodeResultRenderer)
    (content : String) (b : EmbeddedCodeBlock) (st : LoopState)
    (hmiss : cacheGet st.cache (b.content_key st.preceeding) = Option.none) :
    processBlock ex renderers content b st =
      match CodeBlock.get_result ex b.block (dictAt st.pystate st.g)
          st.pystate.objs with
      | .error e =>
        .error (e, { st with
          chunks := st.chunks ++
            [strSlice content st.currentPos b.start, b.markdown],
          currentPos := b.endPos + 1,
          preceeding := b.content_key st.preceeding,
          pystate := { st.pystate with
            dicts := st.pystate.dicts ++ [dictAt st.pystate st.g] } })
      | .ok (g2, objs2, result) =>
        finishBlock renderers (b.content_key st.preceeding)
          (st.chunks ++ [strSlice content st.currentPos b.start, b.markdown])
          (b.endPos + 1) st.pystate.dicts.length result
          (cacheSet st.cache (b.content_key st.preceeding)
            (st.pystate.dicts.length + 1, result))
          { dicts := (st.pystate.dicts ++ [dictAt st.pystate st.g]).set
              st.pystate.dicts.length g2 ++ [g2],
            objs := objs2 } st.s3 (st.evalCount + 1) := by
  unfold processBlock
  rw [hmiss]

/-! ## C3 — cache entries are not immutable -/

/-- C3 (corrected, counterexample): re-rendering the unmodified `c3doc` with
the persisted cache serves a hit; the working environment then *aliases* the
stored snapshot dict (address 2), and `del g['_']` mutates the stored
environment in place: the cached binding is untouched, but the snapshot it
references loses `'_'` during the second pass. -/
theorem cache_entry_mutated_on_hit :
    cacheGet c3pass1.cache c3key = some (2, .int 2) ∧
    cacheGet c3pass2.cache c3key = some (2, .int 2) ∧
    dictAt c3pass1.pystate 2 = [("a", .int 1), ("_", .int 2)] ∧
    dictAt c3pass2.pystate 2 = [("a", .int 1)] := by
  refine ⟨by decide, by decide, by decide, by decide⟩

/-- One loop step never reassigns a key that is already bound: a hit leaves
the cache untouched, a miss inserts only its own (absent) key. -/
lemma loopCache_processBlock_mono (ex : ExecFn)
    (renderers : List CodeResultRenderer) (content : String)
    (b : EmbeddedCodeBlock) (st : LoopState) (k : String) (p : Nat × PyVal)
    (h : cacheGet st.cache k = some p) :
    cacheGet (loopCache (processBlock ex renderers content b st)) k = some p := by
  cases hc : cacheGet st.cache (b.content_key st.preceeding) with
  | some pr =>
    obtain ⟨ga, result⟩ := pr
    rw [processBlock_hit _ _ _ _ _ _ _ hc, loopCache_finishBlock]
    exact h
  | none =>
    rw [processBlock_miss_eq _ _ _ _ _ hc]
    cases hr : CodeBlock.get_result ex b.block (dictAt st.pystate st.g)
        st.pystate.objs with
    | error e => exact h
    | ok tri =>
      obtain ⟨g2, objs2, result⟩ := tri
      refine Eq.trans (congrArg (fun c => cacheGet c k)
        (loopCache_finishBlock _ _ _ _ _ _ _ _ _ _)) ?_
      exact cacheGet_set_fresh _ _ _ hc _ _ h

/-- The loop never reassigns a bound key. -/
lemma runBlocks_cache_mono (ex : ExecFn) (renderers : List CodeResultRenderer)
    (content : String) :
    ∀ (bs : List EmbeddedCodeBlock) (st : LoopState) (k : String)
      (p : Nat × PyVal), cacheGet st.cache k = some p →
      cacheGet (loopCache (runBlocks ex renderers content bs st)) k = some p := by
  intro bs
  induction bs with
  | nil => intro st k p h; exact h
  | cons b bs ih =>
    intro st k p h
    rw [runBlocks]
    have hmono := loopCache_processBlock_mono ex renderers content b st k p h
    cases hp : processBlock ex renderers content b st with
    | error es2 =>
      rw [hp] at hmono
      exact hmono
    | ok st1 =>
      rw [hp] at hmono
      exact ih st1 k p hmono

/-- C3 (amended): the *binding* is write-once — once a key is bound in the
cache, no later operation of any render pass reassigns it (the pair of
snapshot-dict address and last value survives verbatim); what is not
preserved is the contents of the aliased snapshot dict itself, see
`cache_entry_mutated_on_hit`. -/
theorem cache_binding_never_reassigned (ex : ExecFn)
    (renderers : List CodeResultRenderer) (s3 : S3State) (cache : Cache)
    (ps : PyState) (content : String) (k : String) (p : Nat × PyVal)
    (h : cacheGet cache k = some p) :
    cacheGet (render_html ex renderers s3 cache ps content).cache k = some p := by
  simp only [render_html]
  by_cases he : (extract_all content).isEmpty = true
  · simp only [he, if_true]
    exact h
  · have he' : (extract_all content).isEmpty = false := by
      cases hb : (extract_all content).isEmpty
      · rfl
      · exact absurd hb he
    simp only [he', Bool.false_eq_true, if_false]
    have hmono := runBlocks_cache_mono ex renderers content (extract_all content)
      (initLoopState s3 cache ps) k p h
    cases hr : runBlocks ex renderers content (extract_all content)
        (initLoopState s3 cache ps) with
    | error pe =>
      obtain ⟨e, stE⟩ := pe
      rw [hr] at hmono
      exact hmono
    | ok stF =>
      rw [hr] at hmono
      exact hmono

/-- Witness for `cache_binding_never_reassigned`: the second pass over
`c3doc` leaves the stored binding (snapshot address 2, value 2) in place. -/
theorem cache_binding_never_reassigned_witness :
    cacheGet (render_html c3ex defaultRenderers c3pass1.s3 c3pass1.cache
      c3pass1.pystate c3doc).cache c3key = some (2, .int 2) :=
  cache_binding_never_reassigned c3ex defaultRenderers c3pass1.s3 c3pass1.cache
    c3pass1.pystate c3doc c3key (2, .int 2) (by decide)

/-! ## C4 — shallow copies -/

/-- C4 (corrected, counterexample): block 0 of `c4doc` binds `a` to a fresh
list `[0]` and its environment snapshot is cached; block 1 runs `a[0] = 1`
on a *shallow* copy sharing the list object, so after the pass the cached
snapshot still maps `a` to the same object reference — which now holds
`[1]`, not the `[0]` it held when the snapshot was stored. -/
theorem cache_snapshot_altered_by_later_block :
    cacheGet c4pass.cache c4key = some (2, PyVal.none) ∧
    dictGet (dictAt c4pass.pystate 2) "a" = some (.ref 0) ∧
    (loopPyState c4mid).objs = [.list [.int 0]] ∧
    c4pass.pystate.objs = [.list [.int 1]] := by
  refine ⟨by decide, by decide, by decide, by decide⟩

/-- C4 (amended): the Evaluator is called on a copy at the dict level — on a
cache miss the caller's dict object (address `st.g`) is bit-for-bit
unchanged by the whole loop step, whether the fragment succeeds or raises;
only the *top-level mapping* is copied, values being shared by reference
(see `cache_snapshot_altered_by_later_block`). -/
theorem evaluator_runs_on_copy (ex : ExecFn)
    (renderers : List CodeResultRenderer) (content : String)
    (b : EmbeddedCodeBlock) (st : LoopState)
    (hmiss : cacheGet st.cache (b.content_key st.preceeding) = Option.none)
    (hg : st.g < st.pystate.dicts.length) :
    dictAt (loopPyState (processBlock ex renderers content b st)) st.g =
      dictAt st.pystate st.g := by
  rw [processBlock_miss_eq ex renderers content b st hmiss]
  cases hr : CodeBlock.get_result ex b.block (dictAt st.pystate st.g)
      st.pystate.objs with
  | error e =>
    show ({ st.pystate with
      dicts := st.pystate.dicts ++ [dictAt st.pystate st.g] } : PyState).dicts.getD
        st.g [] = st.pystate.dicts.getD st.g []
    exact getD_append_left _ _ _ hg
  | ok tri =>
    obtain ⟨g2, objs2, result⟩ := tri
    have hne : st.pystate.dicts.length ≠ st.g := by omega
    have h1 : st.g < ((st.pystate.dicts ++ [dictAt st.pystate st.g]).set
        st.pystate.dicts.length g2).length := by
      simp
      omega
    refine Eq.trans (dictAt_finishBlock _ _ _ _ _ _ _ _ _ _ _ hne) ?_
    show (((st.pystate.dicts ++ [dictAt st.pystate st.g]).set
        st.pystate.dicts.length g2) ++ [g2]).getD st.g [] =
      st.pystate.dicts.getD st.g []
    rw [getD_append_left _ _ _ h1, getD_set_ne _ _ _ _ hne,
      getD_append_left _ _ _ hg]

/-- Witness for `evaluator_runs_on_copy`: on the first block of `c3doc` the
caller's dict at address 0 is unchanged by the loop step. -/
theorem evaluator_runs_on_copy_witness :
    dictAt (loopPyState (processBlock c3ex defaultRenderers c3doc
        ((extract_all c3doc).headD blockDflt)
        (initLoopState s3empty [] psEmpty)))
      (initLoopState s3empty [] psEmpty).g =
    dictAt (initLoopState s3empty [] psEmpty).pystate
      (initLoopState s3empty [] psEmpty).g :=
  evaluator_runs_on_copy c3ex defaultRenderers c3doc
    ((extract_all c3doc).headD blockDflt) (initLoopState s3empty [] psEmpty)
    (by decide) (by decide)

/-! ## C5 — hit/miss policy and the zero-re-execution contract -/

/-- A hit never touches the Evaluator count, whatever the renderer does. -/
lemma processBlock_hit_evalCount (ex : ExecFn)
    (renderers : List CodeResultRenderer) (content : String)
    (b : EmbeddedCodeBlock) (st : LoopState) (ga : Nat) (result : PyVal)
    (h : cacheGet st.cache (b.content_key st.preceeding) = some (ga, result)) :
    loopEvalCount (processBlock ex renderers content b st) = st.evalCount := by
  rw [processBlock_hit _ _ _ _ _ _ _ h, loopEvalCount_finishBlock]

/-- On a successful hit the cached pair is used verbatim: the working
environment becomes the stored snapshot address, and cache and count are
untouched. -/
lemma processBlock_hit_ok (ex : ExecFn) (renderers : List CodeResultRenderer)
    (content : String) (b : EmbeddedCodeBlock) (st : LoopState) (ga : Nat)
    (result : PyVal) (st' : LoopState)
    (h : cacheGet st.cache (b.content_key st.preceeding) = some (ga, result))
    (hok : processBlock ex renderers content b st = .ok st') :
    st'.g = ga ∧ st'.preceeding = b.content_key st.preceeding ∧
    st'.cache = st.cache ∧ st'.evalCount = st.evalCount := by
  rw [processBlock_hit _ _ _ _ _ _ _ h] at hok
  exact finishBlock_ok_fields _ _ _ _ _ _ _ _ _ _ _ hok

/-- On a successful miss the Evaluator ran exactly once and the resulting
pair is stored under the key in the post-state — before the next block. -/
lemma processBlock_miss_ok (ex : ExecFn) (renderers : List CodeResultRenderer)
    (content : String) (b : EmbeddedCodeBlock) (st st' : LoopState)
    (hmiss : cacheGet st.cache (b.content_key st.preceeding) = Option.none)
    (hok : processBlock ex renderers content b st = .ok st') :
    st'.evalCount = st.evalCount + 1 ∧
    st'.preceeding = b.content_key st.preceeding ∧
    (cacheGet st'.cache (b.content_key st.preceeding)).isSome = true := by
  rw [processBlock_miss_eq _ _ _ _ _ hmiss] at hok
  split at hok
  · cases hok
  · rename_i g2 objs2 result heq
    obtain ⟨h1, h2, h3, h4⟩ := finishBlock_ok_fields _ _ _ _ _ _ _ _ _ _ _ hok
    refine ⟨h4, h2, ?_⟩
    rw [h3, cacheGet_set_self]
    rfl

/-- After a successful run, every chained key is bound in the final cache. -/
lemma runBlocks_keys (ex : ExecFn) (renderers : List CodeResultRenderer)
    (content : String) :
    ∀ (bs : List EmbeddedCodeBlock) (st st' : LoopState),
      runBlocks ex renderers content bs st = .ok st' →
      ∀ k ∈ keyChain st.preceeding bs, (cacheGet st'.cache k).isSome = true := by
  intro bs
  induction bs with
  | nil =>
    intro st st' h k hk
    rw [keyChain] at hk
    cases hk
  | cons b bs ih =>
    intro st st' h k hk
    rw [runBlocks] at h
    cases hp : processBlock ex renderers content b st with
    | error es2 => rw [hp] at h; cases h
    | ok st1 =>
      rw [hp] at h
      have hfacts : (cacheGet st1.cache (b.content_key st.preceeding)).isSome
          = true ∧ st1.preceeding = b.content_key st.preceeding := by
        cases hc : cacheGet st.cache (b.content_key st.preceeding) with
        | some pr =>
          obtain ⟨ga, result⟩ := pr
          obtain ⟨h1, h2, h3, h4⟩ := processBlock_hit_ok ex renderers content b
            st ga result st1 hc hp
          refine ⟨?_, h2⟩
          rw [h3, hc]
          rfl
        | none =>
          obtain ⟨h1, h2, h3⟩ := processBlock_miss_ok ex renderers content b st
            st1 hc hp
          exact ⟨h3, h2⟩
      rw [keyChain] at hk
      rcases List.mem_cons.mp hk with rfl | hk2
      · obtain ⟨hks, hpre⟩ := hfacts
        obtain ⟨p, hp2⟩ := Option.isSome_iff_exists.mp hks
        have h' : runBlocks ex renderers content bs st1 = .ok st' := h
        have hmono := runBlocks_cache_mono ex renderers content bs st1 _ p hp2
        rw [h'] at hmono
        have hfin : cacheGet st'.cache (b.content_key st.preceeding) = some p :=
          hmono
        rw [hfin]
        rfl
      · refine ih st1 st' h k ?_
        rw [hfacts.2]
        exact hk2

/-- When every chained key is already cached, the run performs zero
Evaluator invocations (even if it aborts in a renderer). -/
lemma runBlocks_allHit (ex : ExecFn) (renderers : List CodeResultRenderer)
    (content : String) :
    ∀ (bs : List EmbeddedCodeBlock) (st : LoopState),
      (∀ k ∈ keyChain st.preceeding bs, (cacheGet st.cache k).isSome = true) →
      loopEvalCount (runBlocks ex renderers content bs st) = st.evalCount := by
  intro bs
  induction bs with
  | nil => intro st _; rfl
  | cons b bs ih =>
    intro st hall
    have hk : (cacheGet st.cache (b.content_key st.preceeding)).isSome = true :=
      hall _ (by rw [keyChain]; exact List.mem_cons_self _ _)
    obtain ⟨pr, hpr⟩ := Option.isSome_iff_exists.mp hk
    obtain ⟨ga, result⟩ := pr
    rw [runBlocks]
    cases hp : processBlock ex renderers content b st with
    | error es2 =>
      have hev := processBlock_hit_evalCount ex renderers content b st ga result hpr
      rw [hp] at hev
      exact hev
    | ok st1 =>
      have hfields := processBlock_hit_ok ex renderers content b st ga result
        st1 hpr hp
      have hrec : loopEvalCount (runBlocks ex renderers content bs st1)
          = st1.evalCount := by
        apply ih
        intro k hkmem
        rw [hfields.2.2.1]
        apply hall
        rw [keyChain]
        rw [hfields.2.1] at hkmem
        exact List.mem_cons_of_mem _ hkmem
      exact hrec.trans hfields.2.2.2

/-- A pass whose cache already holds every chained key evaluates nothing. -/
lemma render_html_evalCount_zero (ex2 : ExecFn)
    (renderers2 : List CodeResultRenderer) (s32 : S3State) (cache2 : Cache)
    (ps2 : PyState) (content : String)
    (hall : ∀ k ∈ keyChain "" (extract_all content),
      (cacheGet cache2 k).isSome = true) :
    (render_html ex2 renderers2 s32 cache2 ps2 content).evalCount = 0 := by
  by_cases he : (extract_all content).isEmpty = true
  · simp [render_html, he]
  · have he' : (extract_all content).isEmpty = false := by
      cases hb : (extract_all content).isEmpty
      · rfl
      · exact absurd hb he
    simp only [render_html, he', Bool.false_eq_true, if_false]
    have hec := runBlocks_allHit ex2 renderers2 content (extract_all content)
      (initLoopState s32 cache2 ps2) (fun k hk => hall k hk)
    cases hr2 : runBlocks ex2 renderers2 content (extract_all content)
        (initLoopState s32 cache2 ps2) with
    | error pe =>
      obtain ⟨e, stE⟩ := pe
      rw [hr2] at hec
      exact hec
    | ok stF2 =>
      rw [hr2] at hec
      exact hec

/-- A successful pass leaves every chained key bound in its final cache. -/
lemma render_html_ok_cache_keys (ex : ExecFn)
    (renderers : List CodeResultRenderer) (s3 : S3State) (cache : Cache)
    (ps : PyState) (content out : String)
    (hok : (render_html ex renderers s3 cache ps content).outcome = .ok out) :
    ∀ k ∈ keyChain "" (extract_all content),
      (cacheGet (render_html ex renderers s3 cache ps content).cache k).isSome
        = true := by
  intro k hk
  by_cases he : (extract_all content).isEmpty = true
  · have hnil : extract_all content = [] := by
      cases hl : extract_all content
      · rfl
      · rw [hl] at he; cases he
    rw [hnil, keyChain] at hk
    cases hk
  · have he' : (extract_all content).isEmpty = false := by
      cases hb : (extract_all content).isEmpty
      · rfl
      · exact absurd hb he
    simp only [render_html, he', Bool.false_eq_true, if_false] at hok ⊢
    cases hr : runBlocks ex renderers content (extract_all content)
        (initLoopState s3 cache ps) with
    | error pe =>
      obtain ⟨e, stE⟩ := pe
      rw [hr] at hok
      cases hok
    | ok stF =>
      exact runBlocks_keys ex renderers content _ _ _ hr k hk

/-- C5 (confirmed): on a hit the cached pair is used verbatim and the
Evaluator is not invoked; on a miss the Evaluator runs exactly once and the
resulting pair is stored under the key before the next block; consequently a
second pass over the unmodified document with the first pass's persisted
cache (and heap) performs zero Evaluator invocations. -/
theorem cache_hit_skips_evaluator :
    (∀ (ex : ExecFn) (renderers : List CodeResultRenderer) (content : String)
        (b : EmbeddedCodeBlock) (st : LoopState) (ga : Nat) (result : PyVal),
        cacheGet st.cache (b.content_key st.preceeding) = some (ga, result) →
        loopEvalCount (processBlock ex renderers content b st) = st.evalCount ∧
        ∀ st', processBlock ex renderers content b st = .ok st' →
          st'.g = ga ∧ st'.cache = st.cache) ∧
    (∀ (ex : ExecFn) (renderers : List CodeResultRenderer) (content : String)
        (b : EmbeddedCodeBlock) (st st' : LoopState),
        cacheGet st.cache (b.content_key st.preceeding) = Option.none →
        processBlock ex renderers content b st = .ok st' →
        st'.evalCount = st.evalCount + 1 ∧
        (cacheGet st'.cache (b.content_key st.preceeding)).isSome = true) ∧
    (∀ (ex ex2 : ExecFn) (renderers renderers2 : List CodeResultRenderer)
        (s3 s32 : S3State) (cache : Cache) (ps : PyState) (content out : String),
        (render_html ex renderers s3 cache ps content).outcome = .ok out →
        (render_html ex2 renderers2 s32
           (render_html ex renderers s3 cache ps content).cache
           (render_html ex renderers s3 cache ps content).pystate
           content).evalCount = 0) := by
  refine ⟨?_, ?_, ?_⟩
  · intro ex renderers content b st ga result h
    refine ⟨processBlock_hit_evalCount ex renderers content b st ga result h, ?_⟩
    intro st' hok
    obtain ⟨h1, h2, h3, h4⟩ := processBlock_hit_ok ex renderers content b st ga
      result st' h hok
    exact ⟨h1, h3⟩
  · intro ex renderers content b st st' hmiss hok
    obtain ⟨h1, h2, h3⟩ := processBlock_miss_ok ex renderers content b st st'
      hmiss hok
    exact ⟨h1, h3⟩
  · intro ex ex2 renderers renderers2 s3 s32 cache ps content out hok
    exact render_html_evalCount_zero ex2 renderers2 s32 _ _ content
      (render_html_ok_cache_keys ex renderers s3 cache ps content out hok)

/-- Witness for `cache_hit_skips_evaluator`: the second pass over the
unmodified `c3doc` with the first pass's cache evaluates nothing. -/
theorem cache_hit_skips_evaluator_witness :
    (render_html c3ex defaultRenderers c3pass1.s3
      (render_html c3ex defaultRenderers s3empty [] psEmpty c3doc).cache
      (render_html c3ex defaultRenderers s3empty [] psEmpty c3doc).pystate
      c3doc).evalCount = 0 :=
  cache_hit_skips_evaluator.2.2 c3ex c3ex defaultRenderers defaultRenderers
    s3empty c3pass1.s3 [] psEmpty c3doc
    "X\n\n\n```python\na = 1\n_ = 2\n```\n\n\x602\x60\nY" (by decide)

/-! ## C6 — execution failure aborts the pass -/

/-- Splitting a run at a block boundary. -/
lemma runBlocks_append (ex : ExecFn) (renderers : List CodeResultRenderer)
    (content : String) :
    ∀ (l1 l2 : List EmbeddedCodeBlock) (st : LoopState),
      runBlocks ex renderers content (l1 ++ l2) st =
        match runBlocks ex renderers content l1 st with
        | .ok st1 => runBlocks ex renderers content l2 st1
        | .error es => .error es := by
  intro l1
  induction l1 with
  | nil => intro l2 st; rfl
  | cons b l1 ih =>
    intro l2 st
    rw [List.cons_append, runBlocks, runBlocks]
    cases hp : processBlock ex renderers content b st with
    | error es => rfl
    | ok st1 => exact ih l2 st1

/-- C6 (confirmed): if the first not-yet-cached block's fragment raises,
the exception propagates out of `render_html` unaltered (so no output
document is produced and no output file written), and no cache entry exists
under the failing block's fingerprint afterwards. -/
theorem execution_failure_aborts_pass (ex : ExecFn)
    (renderers : List CodeResultRenderer) (s3 : S3State) (cache : Cache)
    (ps : PyState) (content : String) (pre post : List EmbeddedCodeBlock)
    (b : EmbeddedCodeBlock) (st : LoopState) (e : PyErr)
    (hblocks : extract_all content = pre ++ b :: post)
    (hrun : runBlocks ex renderers content pre (initLoopState s3 cache ps)
      = .ok st)
    (hmiss : cacheGet st.cache (b.content_key st.preceeding) = Option.none)
    (hfail : ex b.block.normalized (dictAt st.pystate st.g) st.pystate.objs
      = .error e) :
    (render_html ex renderers s3 cache ps content).outcome = .error e ∧
    cacheGet (render_html ex renderers s3 cache ps content).cache
      (b.content_key st.preceeding) = Option.none := by
  have hne : (extract_all content).isEmpty = false := by
    rw [hblocks]
    cases pre <;> rfl
  have hget : CodeBlock.get_result ex b.block (dictAt st.pystate st.g)
      st.pystate.objs = .error e := by
    unfold CodeBlock.get_result
    rw [hfail]
  have hstep : processBlock ex renderers content b st = .error (e, { st with
      chunks := st.chunks ++ [strSlice content st.currentPos b.start, b.markdown],
      currentPos := b.endPos + 1,
      preceeding := b.content_key st.preceeding,
      pystate := { st.pystate with
        dicts := st.pystate.dicts ++ [dictAt st.pystate st.g] } }) := by
    rw [processBlock_miss_eq _ _ _ _ _ hmiss, hget]
  have hrunE : runBlocks ex renderers content (extract_all content)
      (initLoopState s3 cache ps) = .error (e, { st with
      chunks := st.chunks ++ [strSlice content st.currentPos b.start, b.markdown],
      currentPos := b.endPos + 1,
      preceeding := b.content_key st.preceeding,
      pystate := { st.pystate with
        dicts := st.pystate.dicts ++ [dictAt st.pystate st.g] } }) := by
    rw [hblocks, runBlocks_append, hrun]
    show runBlocks ex renderers content (b :: post) st = _
    rw [runBlocks, hstep]
  constructor
  · simp only [render_html, hne, Bool.false_eq_true, if_false]
    rw [hrunE]
  · simp only [render_html, hne, Bool.false_eq_true, if_false]
    rw [hrunE]
    exact hmiss

/-- Witness for `execution_failure_aborts_pass`: under the always-raising
Evaluator `c6ex`, the pass over `c1doc` surfaces the exception and caches
nothing under the block's key. -/
theorem execution_failure_aborts_pass_witness :
    (render_html c6ex defaultRenderers s3empty [] psEmpty c1doc).outcome =
      .error (.other "boom") ∧
    cacheGet (render_html c6ex defaultRenderers s3empty [] psEmpty c1doc).cache
      (EmbeddedCodeBlock.content_key ⟨⟨"_ = 1\n"⟩, 2, 20, 0⟩
        (initLoopState s3empty [] psEmpty).preceeding) = Option.none :=
  execution_failure_aborts_pass c6ex defaultRenderers s3empty [] psEmpty c1doc
    [] [] ⟨⟨"_ = 1\n"⟩, 2, 20, 0⟩ (initLoopState s3empty [] psEmpty)
    (.other "boom") (by decide) rfl rfl rfl
